import Mathlib

/-!
# Recipe backend (backend/server.js)

A shallow embedding of the five route handlers of `backend/server.js`, of the
`recipes` table they drive through SQLite, and of the `uploads` directory that
multer writes to.

Modelling conventions.

* The store is the table (rows in storage order), the `sqlite_sequence` counter that
  `AUTOINCREMENT` keeps for the table, and the set of file paths present in the
  upload directory.
* Every handler is a function from the store and the request to the new store and
  the response.  What a handler reads from its environment is an explicit argument:
  the clock (`Date.now()`), the outcome of each SQL statement (`none` when the
  statement runs, `some msg` when the driver reports the error `msg`), and whether
  `fs.unlink` fails on a file that is present.
* The route parameter `:id` is the integer it denotes: SQLite compares it with the
  `INTEGER PRIMARY KEY` column under numeric affinity, exactly.
* Integers that pass through JavaScript are doubles.  The driver hands `this.lastID`
  and the integer columns of a fetched row to the handler as JS numbers, and
  `express.json` parses the number of a request body into one; `jsNumber` is that
  conversion (53 significant bits, ties to even).  The flag value of an update request
  is the integer its JSON body writes; bodies that carry another kind of value for the
  flag are outside the model.
* `path.basename`, `path.extname` are the POSIX versions of Node.
-/

namespace RecipeWeb

/-! ## Data model -/

/-- Listening port, `const port = 5000`. -/
def port : Nat := 5000

/-- One row of the `recipes` table (`CREATE TABLE recipes`, lines 38-47).  The same
record shape is what the list route sends back for each row (`{...row, image}`). -/
structure Row where
  id : Int
  name : String
  poster : String
  ingredients : String
  instructions : String
  image : String
  liked : Int
  favorited : Int
deriving DecidableEq

/-- Persisted state: the `recipes` table in storage order, the `sqlite_sequence`
entry of the table (largest rowid handed out so far), and the paths of the files
present in the upload directory. -/
structure Store where
  rows : List Row
  seq : Int
  files : List String
deriving DecidableEq

/-- Fresh database file and empty upload directory. -/
def emptyStore : Store := { rows := [], seq := 0, files := [] }

/-- The part of multer's file object that the filename callback reads. -/
structure UploadFile where
  originalname : String
deriving DecidableEq

/-- Create request after multipart parsing: the four text fields of `req.body`
(absent fields are `undefined`) and `req.file` (absent when no file part was sent). -/
structure CreateReq where
  name : Option String
  poster : Option String
  ingredients : Option String
  instructions : Option String
  file : Option UploadFile
deriving DecidableEq

/-- The `data` object of the create response (lines 96-105): `id` is the JS number
`this.lastID`, and the text fields echo the request, so a field is `none` exactly when
the request variable is `undefined`. -/
structure Created where
  id : Int
  name : Option String
  poster : Option String
  ingredients : Option String
  instructions : Option String
  image : String
  liked : Int
  favorited : Int
deriving DecidableEq

/-- JSON envelopes sent by the handlers, one constructor per shape. -/
inductive Body where
  | error (error : String)
  | rows (data : List Row)
  | created (message : String) (data : Created)
  | deleted (message : String) (id : Int)
  | liked (message : String) (id : Int) (liked : Int)
  | favorited (message : String) (id : Int) (favorited : Int)
  | unhandled
deriving DecidableEq

/-- HTTP response: status code and JSON body.  `res.json` without `res.status`
sends 200. -/
structure Response where
  status : Nat
  body : Body
deriving DecidableEq

/-! ## JavaScript numbers -/

/-- Number of low-order bits of the natural number `a` that do not fit in the 53-bit
significand of a double.  The first argument bounds the number of halvings. -/
def lostBits : Nat → Nat → Nat
  | 0, _ => 0
  | fuel + 1, a => if a < 2 ^ 53 then 0 else lostBits fuel (a / 2) + 1

/-- The natural number `a` rounded to 53 significant bits, ties to the even
significand (IEEE 754 round-to-nearest-even). -/
def roundNat (a : Nat) : Nat :=
  let e := lostBits a a
  let q := a / 2 ^ e
  let r := a % 2 ^ e
  if 2 * r < 2 ^ e then q * 2 ^ e
  else if 2 ^ e < 2 * r then (q + 1) * 2 ^ e
  else if q % 2 = 0 then q * 2 ^ e
  else (q + 1) * 2 ^ e

/-- The JS number (a double) that an integer becomes: the value the driver builds from a
64-bit integer, and the value `JSON.parse` builds from an integer literal.  Integers of
magnitude 2^1024 and above, which a double cannot hold, are not covered. -/
def jsNumber (x : Int) : Int :=
  if x < 0 then -((roundNat (-x).toNat : Nat) : Int) else ((roundNat x.toNat : Nat) : Int)

/-! ## URL paths -/

/-- Last path segment of a URL, in the words of the property: the URL is cut at its
first `?` or `#`, and the segment is what follows the last slash of the rest. -/
def urlLastSegment (url : String) : String :=
  String.mk (((url.data.takeWhile (fun c => c != '?' && c != '#')).reverse.takeWhile
    (fun c => c != '/')).reverse)

/-! ## Node path functions -/

/-- Node `path.basename(p)` (POSIX, no suffix argument): trailing slashes are skipped,
then the characters back to the previous slash are returned. -/
def basename (p : String) : String :=
  String.mk (((p.data.reverse.dropWhile (fun c => c == '/')).takeWhile
    (fun c => c != '/')).reverse)

/-- Node `path.extname(p)` (POSIX): from the last dot of the last path segment to its
end; empty when the segment has no dot, when its only dot is its first character, and
for the segment `..`. -/
def extname (p : String) : String :=
  let base := (basename p).data
  let r := base.reverse
  match r.dropWhile (fun c => c != '.') with
  | [] => ""
  | _ :: before =>
    if before = [] then ""
    else if base = ['.', '.'] then ""
    else String.mk ('.' :: (r.takeWhile (fun c => c != '.')).reverse)

/-! ## Upload handler (multer disk storage, lines 18-30) -/

/-- The `filename` callback: `Date.now() + path.extname(file.originalname)`. -/
def filename (file : UploadFile) (now : Nat) : String :=
  toString now ++ extname file.originalname

/-- The `file.path` multer reports: `path.join` of the destination `./uploads/` and the
generated filename. -/
def uploadPath (file : UploadFile) (now : Nat) : String :=
  "uploads/" ++ filename file now

/-- Writing a file creates it, or overwrites the file already at that path. -/
def writeFile (files : List String) (p : String) : List String :=
  if p ∈ files then files else files ++ [p]

/-- Effect of `fs.unlink(p)`: the file is removed when it is present and the call does
not fail; otherwise the callback only logs the error. -/
def unlink (files : List String) (p : String) (fsErr : Bool) : List String :=
  if fsErr then files else files.filter (fun q => q != p)

/-! ## Storage layer (SQLite statements) -/

/-- Largest rowid SQLite can store. -/
def MAX_ROWID : Int := 9223372036854775807

/-- Largest rowid present in the table, `none` for the empty table. -/
def lastRowid : List Row → Option Int
  | [] => none
  | r :: rs =>
    match lastRowid rs with
    | none => some r.id
    | some m => some (max r.id m)

/-- Rowid chosen for an insert into an `AUTOINCREMENT` table: one more than the larger
of the largest rowid in the table and the `sqlite_sequence` counter; no rowid is left
(`SQLITE_FULL`) once either has reached the largest rowid. -/
def newRowid (rows : List Row) (seq : Int) : Option Int :=
  match lastRowid rows with
  | none => if MAX_ROWID ≤ seq then none else some (max 1 (seq + 1))
  | some m =>
    if MAX_ROWID ≤ m ∨ MAX_ROWID ≤ seq then none else some (max (m + 1) (seq + 1))

/-- Message of the `NOT NULL` failure of an insert: SQLite names the first column, in
table order, that received NULL. -/
def notNullMessage (name poster ingredients : Option String) : String :=
  "SQLITE_CONSTRAINT: NOT NULL constraint failed: recipes." ++
    (if name.isNone then "name"
     else if poster.isNone then "poster"
     else if ingredients.isNone then "ingredients"
     else "instructions")

/-- The statement
`INSERT INTO recipes (name, poster, ingredients, instructions, image) VALUES (?, ?, ?, ?, ?)`.
An `undefined` parameter is bound as NULL and violates `NOT NULL`; `liked` and
`favorited` take their default 0.  Returns the new store and the rowid of the new row
(`sqlite3_last_insert_rowid`). -/
def dbInsert (s : Store) (name poster ingredients instructions : Option String)
    (image : String) (dbErr : Option String) : Except String (Store × Int) :=
  match dbErr with
  | some e => .error e
  | none =>
    match name, poster, ingredients, instructions with
    | some n, some p, some g, some t =>
      match newRowid s.rows s.seq with
      | none => .error "SQLITE_FULL: database or disk is full"
      | some k =>
        .ok ({ s with
                rows := s.rows ++ [{ id := k, name := n, poster := p, ingredients := g,
                                     instructions := t, image := image, liked := 0,
                                     favorited := 0 }],
                seq := k }, k)
    | _, _, _, _ => .error (notNullMessage name poster ingredients)

/-- The statement `SELECT image FROM recipes WHERE id = ?` run with `db.get`: the first
matching row, if any. -/
def dbGet (s : Store) (id : Int) : Option Row :=
  s.rows.find? (fun r => r.id == id)

/-- The statement `DELETE FROM recipes WHERE id = ?`. -/
def dbDelete (s : Store) (id : Int) : Store :=
  { s with rows := s.rows.filter (fun r => r.id != id) }

/-- The statement `UPDATE recipes SET liked = ? WHERE id = ?`. -/
def dbSetLiked (s : Store) (liked id : Int) : Store :=
  { s with rows := s.rows.map (fun r => if r.id = id then { r with liked := liked } else r) }

/-- The statement `UPDATE recipes SET favorited = ? WHERE id = ?`. -/
def dbSetFavorited (s : Store) (favorited id : Int) : Store :=
  { s with
    rows := s.rows.map (fun r => if r.id = id then { r with favorited := favorited } else r) }

/-! ## Route handlers -/

/-- The JS object `db.all` builds for a fetched row: the integer columns become JS
numbers, the text columns are kept. -/
def fetchedRow (row : Row) : Row :=
  { row with
    id := jsNumber row.id, liked := jsNumber row.liked, favorited := jsNumber row.favorited }

/-- Handler of `GET /api/recipes` (lines 60-77): every fetched row is spread into a new
object whose `image` is the rewritten URL. -/
def listRecipes (s : Store) (dbErr : Option String) : Response :=
  match dbErr with
  | some e => { status := 400, body := .error e }
  | none =>
    { status := 200,
      body := .rows ((s.rows.map fetchedRow).map (fun row =>
        { row with
          image := "http://localhost:" ++ toString port ++ "/uploads/" ++ basename row.image })) }

/-- Handler of `POST /api/recipes` behind `upload.single` (lines 80-108).  With a file
part, multer first writes the file, then the handler inserts the row and answers with
`this.lastID`, which the driver sets as a JS number.  Without a file part,
`req.file.path` throws and the framework answers 500. -/
def createRecipe (s : Store) (req : CreateReq) (now : Nat) (dbErr : Option String) :
    Store × Response :=
  match req.file with
  | none => (s, { status := 500, body := .unhandled })
  | some f =>
    let image := uploadPath f now
    let s1 : Store := { s with files := writeFile s.files image }
    match dbInsert s1 req.name req.poster req.ingredients req.instructions image dbErr with
    | .error msg => (s1, { status := 400, body := .error msg })
    | .ok (s2, lastID) =>
      (s2, { status := 200,
             body := .created "Recipe added successfully"
               { id := jsNumber lastID, name := req.name, poster := req.poster,
                 ingredients := req.ingredients, instructions := req.instructions,
                 image := "http://localhost:" ++ toString port ++ "/uploads/" ++ basename image,
                 liked := 0, favorited := 0 } })

/-- Handler of `DELETE /api/recipes/:id` (lines 111-141): look the row up, unlink its
image file, then delete the row. -/
def deleteRecipe (s : Store) (id : Int) (selErr delErr : Option String) (fsErr : Bool) :
    Store × Response :=
  match selErr with
  | some e => (s, { status := 400, body := .error e })
  | none =>
    match dbGet s id with
    | some row =>
      let s1 : Store := { s with files := unlink s.files row.image fsErr }
      match delErr with
      | some e => (s1, { status := 400, body := .error e })
      | none =>
        (dbDelete s1 id, { status := 200, body := .deleted "Recipe deleted successfully" id })
    | none => (s, { status := 404, body := .error "Recipe not found" })

/-- Handler of `PUT /api/recipes/:id/like` (lines 144-159).  The argument `liked` is the
integer written in the JSON body; `req.body.liked` is the JS number `express.json`
parsed from it, which is both bound to the statement and echoed in the response. -/
def updateLiked (s : Store) (id liked : Int) (dbErr : Option String) : Store × Response :=
  let parsed := jsNumber liked
  match dbErr with
  | some e => (s, { status := 400, body := .error e })
  | none =>
    (dbSetLiked s parsed id,
      { status := 200, body := .liked "Recipe liked status updated successfully" id parsed })

/-- Handler of `PUT /api/recipes/:id/favorite` (lines 162-177), with `favorited` read
from the JSON body in the same way. -/
def updateFavorited (s : Store) (id favorited : Int) (dbErr : Option String) :
    Store × Response :=
  let parsed := jsNumber favorited
  match dbErr with
  | some e => (s, { status := 400, body := .error e })
  | none =>
    (dbSetFavorited s parsed id,
      { status := 200,
        body := .favorited "Recipe favorited status updated successfully" id parsed })

/-! ## Request sequences -/

/-- One request together with what its handler reads from the environment. -/
inductive Op where
  | list (dbErr : Option String)
  | create (req : CreateReq) (now : Nat) (dbErr : Option String)
  | delete (id : Int) (selErr delErr : Option String) (fsErr : Bool)
  | like (id liked : Int) (dbErr : Option String)
  | favorite (id favorited : Int) (dbErr : Option String)
deriving DecidableEq

/-- Serve one request. -/
def step (s : Store) : Op → Store × Response
  | .list dbErr => (s, listRecipes s dbErr)
  | .create req now dbErr => createRecipe s req now dbErr
  | .delete id selErr delErr fsErr => deleteRecipe s id selErr delErr fsErr
  | .like id liked dbErr => updateLiked s id liked dbErr
  | .favorite id favorited dbErr => updateFavorited s id favorited dbErr

/-- Serve a sequence of requests one after the other; the responses come back in
request order. -/
def run (s : Store) : List Op → Store × List Response
  | [] => (s, [])
  | op :: ops =>
    let r := step s op
    let rest := run r.1 ops
    (rest.1, r.2 :: rest.2)

/-- The id a response reports for a created recipe, if it is a create success. -/
def createdId (r : Response) : Option Int :=
  match r.body with
  | .created _ d => some d.id
  | _ => none

/-- Ids returned by the successful creates of a response sequence, in order. -/
def createdIds (rs : List Response) : List Int :=
  rs.filterMap createdId

/-! ## Sample requests and stores -/

/-- The create request of the example scenario. -/
def soup : CreateReq :=
  { name := some "Soup", poster := some "Alice", ingredients := some "water,salt",
    instructions := some "boil", file := some { originalname := "photo.jpg" } }

/-- A create request whose form lacks the `name` field. -/
def nameless : CreateReq :=
  { name := none, poster := some "Alice", ingredients := some "water,salt",
    instructions := some "boil", file := some { originalname := "photo.jpg" } }

/-- The store after one successful create of `soup` at clock value 17. -/
def soupStore : Store :=
  { rows := [{ id := 1, name := "Soup", poster := "Alice", ingredients := "water,salt",
               instructions := "boil", image := "uploads/17.jpg", liked := 0,
               favorited := 0 }],
    seq := 1, files := ["uploads/17.jpg"] }

/-- A table with two rows whose ids are 2^53 and 2^53 + 1. -/
def bigStore : Store :=
  { rows := [{ id := 9007199254740992, name := "Stew", poster := "Bob",
               ingredients := "beef", instructions := "simmer", image := "uploads/17.jpg",
               liked := 0, favorited := 0 },
             { id := 9007199254740993, name := "Soup", poster := "Alice",
               ingredients := "water,salt", instructions := "boil",
               image := "uploads/18.jpg", liked := 0, favorited := 0 }],
    seq := 9007199254740993, files := ["uploads/17.jpg", "uploads/18.jpg"] }

/-- A table whose only row has id 2^53, with the sequence counter at 2^53. -/
def stewStore : Store :=
  { rows := [{ id := 9007199254740992, name := "Stew", poster := "Bob",
               ingredients := "beef", instructions := "simmer", image := "uploads/17.jpg",
               liked := 0, favorited := 0 }],
    seq := 9007199254740992, files := ["uploads/17.jpg"] }

/-- An empty table whose sequence counter has reached 2^53. -/
def seededStore : Store :=
  { rows := [], seq := 9007199254740992, files := [] }

/-- The create request of the example scenario with a file named `photo.jpg#1`. -/
def soupHash : CreateReq :=
  { soup with file := some { originalname := "photo.jpg#1" } }

/-! ## Store predicates -/

/-- Integers that a double holds exactly: absolute value at most 2^53. -/
def safeInt (x : Int) : Prop :=
  -(2 ^ 53) ≤ x ∧ x ≤ 2 ^ 53

instance (x : Int) : Decidable (safeInt x) := by
  unfold safeInt; infer_instance

/-- Every id of the table is held exactly by a double. -/
def safeIds (s : Store) : Prop :=
  ∀ r ∈ s.rows, safeInt r.id

instance (s : Store) : Decidable (safeIds s) := by
  unfold safeIds; infer_instance

/-- Well-formed table: ids are pairwise distinct (primary key) and none exceeds the
sequence counter. -/
def StoreOk (s : Store) : Prop :=
  (s.rows.map Row.id).Nodup ∧ ∀ r ∈ s.rows, r.id ≤ s.seq

/-- No dangling row: the image path of every row is a file of the upload directory. -/
def imagesPresent (s : Store) : Prop :=
  ∀ r ∈ s.rows, r.image ∈ s.files

instance (s : Store) : Decidable (imagesPresent s) := by
  unfold imagesPresent; infer_instance

/-- Both flags of every row are 0 or 1. -/
def flagsBoolean (s : Store) : Prop :=
  ∀ r ∈ s.rows, (r.liked = 0 ∨ r.liked = 1) ∧ (r.favorited = 0 ∨ r.favorited = 1)

instance (s : Store) : Decidable (flagsBoolean s) := by
  unfold flagsBoolean; infer_instance

/-- Side condition on one request for the no-dangling-row invariant: a create carrying
a file generates a path that no row of the table references, and the row delete
statement of a delete does not fail. -/
def opKeepsImages (s : Store) : Op → Bool
  | .create req now _ =>
    match req.file with
    | none => true
    | some f => decide (uploadPath f now ∉ s.rows.map Row.image)
  | .delete _ _ delErr _ => delErr.isNone
  | _ => true

/-- The side condition `opKeepsImages` holds at every request of a sequence, each taken
in the store the earlier requests produced. -/
def keepsImages (s : Store) : List Op → Bool
  | [] => true
  | op :: ops => opKeepsImages s op && keepsImages (step s op).1 ops

/-- The flag value a request supplies, if it is a flag update, is 0 or 1. -/
def flagValueBoolean : Op → Bool
  | .like _ liked _ => decide (liked = 0 ∨ liked = 1)
  | .favorite _ favorited _ => decide (favorited = 0 ∨ favorited = 1)
  | _ => true

theorem digitChar_big (e : Nat) : Nat.digitChar (e + 16) = '*' := by
  rfl

theorem digitChar_small :
    ∀ d < 16, Nat.digitChar d ≠ '/' ∧ Nat.digitChar d ≠ '?' ∧ Nat.digitChar d ≠ '#' := by
  decide

/-- No decimal digit character is a slash, a question mark or a hash. -/
theorem digitChar_plain (d : Nat) :
    Nat.digitChar d ≠ '/' ∧ Nat.digitChar d ≠ '?' ∧ Nat.digitChar d ≠ '#' := by
  rcases Nat.lt_or_ge d 16 with h | h
  · exact digitChar_small d h
  · obtain ⟨e, rfl⟩ := Nat.exists_eq_add_of_le h
    rw [Nat.add_comm, digitChar_big]; decide

theorem toDigitsCore_plain (fuel : Nat) : ∀ (n : Nat) (ds : List Char),
    (∀ c ∈ ds, c ≠ '/' ∧ c ≠ '?' ∧ c ≠ '#') →
    ∀ c ∈ Nat.toDigitsCore 10 fuel n ds, c ≠ '/' ∧ c ≠ '?' ∧ c ≠ '#' := by
  induction fuel with
  | zero => intro n ds h; simpa [Nat.toDigitsCore] using h
  | succ f ih =>
    intro n ds h
    have hd : ∀ c ∈ Nat.digitChar (n % 10) :: ds, c ≠ '/' ∧ c ≠ '?' ∧ c ≠ '#' := by
      intro c hc
      rcases List.mem_cons.1 hc with rfl | hc
      · exact digitChar_plain _
      · exact h c hc
    simp only [Nat.toDigitsCore]
    split_ifs
    · exact hd
    · exact ih _ _ hd

theorem toDigitsCore_length_le (fuel : Nat) : ∀ (n : Nat) (ds : List Char),
    ds.length ≤ (Nat.toDigitsCore 10 fuel n ds).length := by
  induction fuel with
  | zero => intro n ds; simp [Nat.toDigitsCore]
  | succ f ih =>
    intro n ds
    simp only [Nat.toDigitsCore]
    split_ifs
    · simp
    · exact le_trans (by simp) (ih _ _)

theorem toString_nat_plain (n : Nat) :
    (toString n).data ≠ [] ∧ ∀ c ∈ (toString n).data, c ≠ '/' ∧ c ≠ '?' ∧ c ≠ '#' := by
  have e : (toString n).data = Nat.toDigitsCore 10 (n + 1) n [] := rfl
  rw [e]
  constructor
  · intro h
    have h1 : (Nat.toDigitsCore 10 (n + 1) n []).length = 0 := by rw [h]; rfl
    simp only [Nat.toDigitsCore] at h1
    split_ifs at h1
    · simp at h1
    · have := toDigitsCore_length_le n (n / 10) [Nat.digitChar (n % 10)]
      simp at this
      omega
  · exact toDigitsCore_plain _ _ _ (by simp)

theorem toString_nat_data (n : Nat) :
    (toString n).data ≠ [] ∧ ∀ c ∈ (toString n).data, c ≠ '/' :=
  ⟨(toString_nat_plain n).1, fun c hc => ((toString_nat_plain n).2 c hc).1⟩

theorem basename_no_slash (p : String) : ∀ c ∈ (basename p).data, c ≠ '/' := by
  intro c hc
  simp only [basename, List.mem_reverse] at hc
  have := List.mem_takeWhile_imp hc
  simpa using this

theorem extname_no_slash (p : String) : ∀ c ∈ (extname p).data, c ≠ '/' := by
  intro c hc
  unfold extname at hc
  simp only at hc
  split at hc
  · simp at hc
  · split_ifs at hc
    · simp at hc
    · simp at hc
    · simp only [List.mem_cons, List.mem_reverse] at hc
      rcases hc with rfl | hc
      · decide
      · have h1 := (List.takeWhile_sublist _).subset hc
        exact basename_no_slash p c (List.mem_reverse.1 h1)

theorem takeWhile_ne_slash_append (l m : List Char) (h : ∀ c ∈ l, c ≠ '/') :
    (l ++ '/' :: m).takeWhile (fun c => c != '/') = l := by
  induction l with
  | nil => simp
  | cons a l ih =>
    have ha : a ≠ '/' := h a (by simp)
    have e := ih (fun c hc => h c (by simp [hc]))
    simp [List.takeWhile_cons, ha, e]

theorem basename_of_data (p : String) (dir name : List Char)
    (hp : p.data = dir ++ '/' :: name) (hne : name ≠ []) (hns : ∀ c ∈ name, c ≠ '/') :
    basename p = String.mk name := by
  unfold basename
  congr 1
  rw [hp]
  have hr : (dir ++ '/' :: name).reverse = name.reverse ++ '/' :: dir.reverse := by simp
  rw [hr]
  have hd : (name.reverse ++ '/' :: dir.reverse).dropWhile (fun c => c == '/')
      = name.reverse ++ '/' :: dir.reverse := by
    cases hrev : name.reverse with
    | nil => simp at hrev; exact absurd hrev hne
    | cons a t =>
      have ha : a ≠ '/' := hns a (by rw [← List.mem_reverse, hrev]; simp)
      simp [List.dropWhile_cons, ha]
  rw [hd, takeWhile_ne_slash_append _ _ (fun c hc => hns c (List.mem_reverse.1 hc))]
  simp

theorem filename_data (f : UploadFile) (now : Nat) :
    (filename f now).data ≠ [] ∧ ∀ c ∈ (filename f now).data, c ≠ '/' := by
  have h := toString_nat_data now
  unfold filename
  constructor
  · simp [String.data_append, h.1]
  · intro c hc
    simp only [String.data_append, List.mem_append] at hc
    rcases hc with hc | hc
    · exact h.2 c hc
    · exact extname_no_slash _ c hc

theorem basename_uploadPath (f : UploadFile) (now : Nat) :
    basename (uploadPath f now) = filename f now := by
  have h := filename_data f now
  have := basename_of_data (uploadPath f now) "uploads".data (filename f now).data
    (by simp [uploadPath, String.data_append]) h.1 h.2
  simpa using this

theorem filename_no_mark (f : UploadFile) (now : Nat)
    (h : ∀ c ∈ (extname f.originalname).data, c ≠ '?' ∧ c ≠ '#') :
    ∀ c ∈ (filename f now).data, c ≠ '?' ∧ c ≠ '#' := by
  intro c hc
  simp only [filename, String.data_append, List.mem_append] at hc
  rcases hc with hc | hc
  · exact ((toString_nat_plain now).2 c hc).2
  · exact h c hc

theorem url_chars_plain :
    ∀ c ∈ "http://localhost:5000/uploads".data, (c != '?' && c != '#') = true := by
  decide

theorem urlLastSegment_url (fn : String) (hns : ∀ c ∈ fn.data, c ≠ '/')
    (hnm : ∀ c ∈ fn.data, c ≠ '?' ∧ c ≠ '#') :
    urlLastSegment ("http://localhost:5000/uploads/" ++ fn) = fn := by
  have hd : ("http://localhost:5000/uploads/" ++ fn).data
      = "http://localhost:5000/uploads".data ++ '/' :: fn.data := by
    simp [String.data_append]
  have hall : ∀ c ∈ "http://localhost:5000/uploads".data ++ '/' :: fn.data,
      (c != '?' && c != '#') = true := by
    intro c hc
    rcases List.mem_append.1 hc with hc | hc
    · exact url_chars_plain c hc
    · rcases List.mem_cons.1 hc with rfl | hc
      · decide
      · have := hnm c hc
        simp [this.1, this.2]
  unfold urlLastSegment
  rw [hd, List.takeWhile_eq_self_iff.2 hall]
  have hr : ("http://localhost:5000/uploads".data ++ '/' :: fn.data).reverse
      = fn.data.reverse ++ '/' :: "http://localhost:5000/uploads".data.reverse := by simp
  rw [hr, takeWhile_ne_slash_append _ _ (fun c hc => hns c (List.mem_reverse.1 hc))]
  simp

/-! ## JavaScript number lemmas -/

theorem lostBits_small (a : Nat) (h : a < 2 ^ 53) : lostBits a a = 0 := by
  cases a with
  | zero => rfl
  | succ n =>
    simp only [lostBits]
    rw [if_pos h]

theorem roundNat_small (a : Nat) (h : a ≤ 2 ^ 53) : roundNat a = a := by
  rcases Nat.lt_or_ge a (2 ^ 53) with hlt | hge
  · simp [roundNat, lostBits_small a hlt, Nat.mod_one]
  · have : a = 2 ^ 53 := le_antisymm h hge
    subst this
    decide

/-- An integer of absolute value at most 2^53 is its own JS number. -/
theorem jsNumber_safe (x : Int) (h : safeInt x) : jsNumber x = x := by
  obtain ⟨h1, h2⟩ := h
  unfold jsNumber
  split_ifs with hneg
  · rw [roundNat_small _ (by omega)]
    omega
  · rw [roundNat_small _ (by omega)]
    omega

theorem jsNumber_flag (v : Int) (h : v = 0 ∨ v = 1) : jsNumber v = v := by
  rcases h with rfl | rfl <;> decide

/-! ## Storage lemmas -/

theorem url_const :
    "http://localhost:" ++ toString port ++ "/uploads/" = "http://localhost:5000/uploads/" := by
  decide

theorem basename_url (fn : String) (hne : fn.data ≠ []) (hns : ∀ c ∈ fn.data, c ≠ '/') :
    basename ("http://localhost:5000/uploads/" ++ fn) = fn := by
  have := basename_of_data ("http://localhost:5000/uploads/" ++ fn)
    "http://localhost:5000/uploads".data fn.data (by simp [String.data_append]) hne hns
  simpa using this

theorem lastRowid_none {rows : List Row} (h : lastRowid rows = none) : rows = [] := by
  cases rows with
  | nil => rfl
  | cons r rs =>
    simp only [lastRowid] at h
    split at h <;> simp at h

theorem lastRowid_ge : ∀ (rows : List Row) (m : Int), lastRowid rows = some m →
    ∀ r ∈ rows, r.id ≤ m := by
  intro rows
  induction rows with
  | nil => intro m h; simp [lastRowid] at h
  | cons a rs ih =>
    intro m h r hr
    simp only [lastRowid] at h
    split at h
    · rename_i hn
      have := lastRowid_none hn
      subst this
      simp at h hr
      subst hr; omega
    · rename_i k hk
      simp at h
      rcases List.mem_cons.1 hr with rfl | hr
      · omega
      · have := ih k hk r hr
        omega

theorem lastRowid_mem : ∀ (rows : List Row) (m : Int), lastRowid rows = some m →
    ∃ r ∈ rows, r.id = m := by
  intro rows
  induction rows with
  | nil => intro m h; simp [lastRowid] at h
  | cons a rs ih =>
    intro m h
    simp only [lastRowid] at h
    split at h
    · simp at h
      exact ⟨a, by simp, h⟩
    · rename_i k hk
      simp at h
      obtain ⟨r, hr, hrk⟩ := ih k hk
      rcases le_total a.id k with hle | hle
      · exact ⟨r, by simp [hr], by omega⟩
      · exact ⟨a, by simp, by omega⟩

theorem newRowid_spec {rows : List Row} {seq k : Int} (h : newRowid rows seq = some k) :
    (∀ r ∈ rows, r.id < k) ∧ seq < k ∧ k ≤ MAX_ROWID := by
  have hmax : MAX_ROWID = 9223372036854775807 := rfl
  unfold newRowid at h
  split at h
  · rename_i hn
    have hr := lastRowid_none hn
    subst hr
    split_ifs at h with hc
    simp at h
    refine ⟨by simp, ?_, ?_⟩ <;> omega
  · rename_i m hm
    have hle := lastRowid_ge rows m hm
    split_ifs at h with hc
    simp at h
    push_neg at hc
    refine ⟨fun r hr => ?_, ?_, ?_⟩
    · have := hle r hr; omega
    · omega
    · omega

theorem dbInsert_ok {s s2 : Store} {name poster ingredients instructions : Option String}
    {image : String} {dbErr : Option String} {k : Int}
    (h : dbInsert s name poster ingredients instructions image dbErr = .ok (s2, k)) :
    ∃ n p g t, name = some n ∧ poster = some p ∧ ingredients = some g ∧
      instructions = some t ∧ dbErr = none ∧ newRowid s.rows s.seq = some k ∧
      s2 = { rows := s.rows ++ [{ id := k, name := n, poster := p, ingredients := g,
                                  instructions := t, image := image, liked := 0,
                                  favorited := 0 }],
             seq := k, files := s.files } := by
  unfold dbInsert at h
  cases dbErr with
  | some e => simp at h
  | none =>
    cases name <;> cases poster <;> cases ingredients <;> cases instructions <;>
      simp only [] at h <;> try (exact absurd h (by simp))
    rename_i n p g t
    cases hk : newRowid s.rows s.seq with
    | none => rw [hk] at h; simp at h
    | some k2 =>
      rw [hk] at h
      simp only [Except.ok.injEq, Prod.mk.injEq] at h
      obtain ⟨h1, h2⟩ := h
      subst h2
      exact ⟨n, p, g, t, rfl, rfl, rfl, rfl, rfl, rfl, h1.symm⟩

theorem dbInsert_files_irrelevant (s : Store) (files : List String)
    (name poster ingredients instructions : Option String) (image : String)
    (dbErr : Option String) (msg : String) :
    dbInsert { s with files := files } name poster ingredients instructions image dbErr
        = .error msg ↔
      dbInsert s name poster ingredients instructions image dbErr = .error msg := by
  unfold dbInsert
  cases dbErr <;> cases name <;> cases poster <;> cases ingredients <;>
    cases instructions <;> simp only []
  cases newRowid s.rows s.seq <;> simp

theorem createRecipe_ok {s s2 : Store} {req : CreateReq} {now : Nat} {dbErr : Option String}
    {msg : String} {d : Created}
    (h : createRecipe s req now dbErr = (s2, { status := 200, body := .created msg d })) :
    ∃ f n p g t k, req.file = some f ∧ req.name = some n ∧ req.poster = some p ∧
      req.ingredients = some g ∧ req.instructions = some t ∧ dbErr = none ∧
      newRowid s.rows s.seq = some k ∧
      s2 = { rows := s.rows ++ [{ id := k, name := n, poster := p, ingredients := g,
                                  instructions := t, image := uploadPath f now, liked := 0,
                                  favorited := 0 }],
             seq := k, files := writeFile s.files (uploadPath f now) } ∧
      d = { id := jsNumber k, name := some n, poster := some p, ingredients := some g,
            instructions := some t,
            image := "http://localhost:5000/uploads/" ++ basename (uploadPath f now),
            liked := 0, favorited := 0 } := by
  unfold createRecipe at h
  cases hf : req.file with
  | none => rw [hf] at h; simp at h
  | some f =>
    rw [hf] at h
    simp only [] at h
    cases hi : dbInsert { s with files := writeFile s.files (uploadPath f now) } req.name
        req.poster req.ingredients req.instructions (uploadPath f now) dbErr with
    | error e => rw [hi] at h; simp at h
    | ok v =>
      obtain ⟨s3, k⟩ := v
      rw [hi] at h
      obtain ⟨n, p, g, t, hn, hp, hg, ht, he, hk, hs⟩ := dbInsert_ok hi
      simp only [Prod.mk.injEq, Response.mk.injEq, Body.created.injEq, true_and] at h
      obtain ⟨h1, _, h3⟩ := h
      refine ⟨f, n, p, g, t, k, rfl, hn, hp, hg, ht, he, hk, ?_, ?_⟩
      · rw [← h1, hs]
      · rw [← h3, hn, hp, hg, ht, url_const]

/-! ## Delete -/

theorem dbGet_none {s : Store} {id : Int} (h : ∀ r ∈ s.rows, r.id ≠ id) : dbGet s id = none := by
  unfold dbGet
  rw [List.find?_eq_none]
  intro r hr
  simpa using h r hr

theorem dbGet_some {s : Store} {id : Int} {row : Row} (hrow : row ∈ s.rows) (hid : row.id = id) :
    ∃ r, dbGet s id = some r ∧ r ∈ s.rows ∧ r.id = id := by
  unfold dbGet
  cases hf : s.rows.find? (fun r => r.id == id) with
  | none =>
    rw [List.find?_eq_none] at hf
    exact absurd hid (by simpa using hf row hrow)
  | some r =>
    exact ⟨r, rfl, List.mem_of_find?_eq_some hf, by simpa using List.find?_some hf⟩

theorem filter_ne_split (l1 l2 : List Row) (row : Row)
    (hnodup : ((l1 ++ row :: l2).map Row.id).Nodup) :
    (l1 ++ row :: l2).filter (fun r => r.id != row.id) = l1 ++ l2 := by
  rw [List.map_append, List.map_cons, List.nodup_append] at hnodup
  obtain ⟨_, h2, h3⟩ := hnodup
  rw [List.nodup_cons] at h2
  have hl1 : ∀ r ∈ l1, r.id ≠ row.id := by
    intro r hr he
    exact h3 (List.mem_map_of_mem _ hr) (by rw [he]; simp)
  have hl2 : ∀ r ∈ l2, r.id ≠ row.id := by
    intro r hr he
    exact h2.1 (by rw [← he]; exact List.mem_map_of_mem _ hr)
  rw [List.filter_append, List.filter_cons]
  simp only [bne_self_eq_false, Bool.false_eq_true, if_false]
  congr 1
  · exact List.filter_eq_self.2 (fun r hr => by simpa using hl1 r hr)
  · exact List.filter_eq_self.2 (fun r hr => by simpa using hl2 r hr)

/-- C1: for every store and every id that matches no row, `DELETE /api/recipes/:id`
answers 404 with the error envelope and leaves the store as it was: the table and its
row count, the sequence counter and the upload directory (no file is unlinked).  The
store is also untouched when the lookup statement fails. -/
theorem delete_missing_id (s : Store) (id : Int) (selErr delErr : Option String)
    (fsErr : Bool) (h : ∀ r ∈ s.rows, r.id ≠ id) :
    deleteRecipe s id none delErr fsErr
        = (s, { status := 404, body := .error "Recipe not found" }) ∧
      (deleteRecipe s id none delErr fsErr).1.rows.length = s.rows.length ∧
      (deleteRecipe s id none delErr fsErr).1.files = s.files ∧
      (deleteRecipe s id selErr delErr fsErr).1 = s := by
  have hg := dbGet_none h
  have h1 : deleteRecipe s id none delErr fsErr
      = (s, { status := 404, body := .error "Recipe not found" }) := by
    simp [deleteRecipe, hg]
  refine ⟨h1, by rw [h1], by rw [h1], ?_⟩
  cases selErr with
  | none => rw [h1]
  | some e => simp [deleteRecipe]

theorem delete_missing_id_witness :
    (∀ r ∈ soupStore.rows, r.id ≠ 2) ∧
      deleteRecipe soupStore 2 none none false
        = (soupStore, { status := 404, body := .error "Recipe not found" }) :=
  ⟨by decide, (delete_missing_id soupStore 2 none none false (by decide)).1⟩

/-- C2, as the claim states it, fails above 2^53: the table holds rows 2^53 and
2^53 + 1, the delete of id 2^53 succeeds, and the list that follows shows the remaining
row under the id 2^53, because the driver hands ids to the handler as doubles. -/
theorem deleted_id_still_listed :
    (deleteRecipe bigStore 9007199254740992 none none false).2
        = { status := 200,
            body := .deleted "Recipe deleted successfully" 9007199254740992 } ∧
      (deleteRecipe bigStore 9007199254740992 none none false).1.rows.map Row.id
        = [9007199254740993] ∧
      listRecipes (deleteRecipe bigStore 9007199254740992 none none false).1 none
        = { status := 200,
            body := .rows [{ id := 9007199254740992, name := "Soup", poster := "Alice",
                             ingredients := "water,salt", instructions := "boil",
                             image := "http://localhost:5000/uploads/18.jpg", liked := 0,
                             favorited := 0 }] } := by
  decide

/-- C2, amended: for every store and every id that matches a row, when the lookup and
the row delete statement succeed the delete answers the success envelope with `data.id`
the requested id; the new table is the old one with the rows of that id taken out, every
other row kept unchanged and in order; with distinct ids (primary key) exactly the one
matching row is removed; every entry of a subsequent list comes from a row with another
id, and when every id of the table has absolute value at most 2^53 no entry shows the
requested id.  The response and the resulting table are the same whatever the upload
directory holds and whether or not the unlink fails. -/
theorem delete_existing_id (s : Store) (id : Int) (fsErr : Bool) (row : Row)
    (hrow : row ∈ s.rows) (hid : row.id = id) :
    (deleteRecipe s id none none fsErr).2
        = { status := 200, body := .deleted "Recipe deleted successfully" id } ∧
      (deleteRecipe s id none none fsErr).1.rows.Sublist s.rows ∧
      (∀ r, r ∈ (deleteRecipe s id none none fsErr).1.rows ↔ r ∈ s.rows ∧ r.id ≠ id) ∧
      ((s.rows.map Row.id).Nodup →
        ∃ l1 l2, s.rows = l1 ++ row :: l2 ∧
          (deleteRecipe s id none none fsErr).1.rows = l1 ++ l2) ∧
      (∃ rs, listRecipes (deleteRecipe s id none none fsErr).1 none
          = { status := 200, body := .rows rs } ∧
        (∀ e ∈ rs, ∃ r ∈ s.rows, r.id ≠ id ∧ e.id = jsNumber r.id) ∧
        (safeIds s → ∀ e ∈ rs, e.id ≠ id)) ∧
      (∀ (files : List String) (fsErr2 : Bool),
        (deleteRecipe { s with files := files } id none none fsErr2).2
            = (deleteRecipe s id none none fsErr).2 ∧
          (deleteRecipe { s with files := files } id none none fsErr2).1.rows
            = (deleteRecipe s id none none fsErr).1.rows) := by
  have key : ∀ (t : Store) (b : Bool), t.rows = s.rows →
      (deleteRecipe t id none none b).2
          = { status := 200, body := .deleted "Recipe deleted successfully" id } ∧
        (deleteRecipe t id none none b).1.rows = s.rows.filter (fun r => r.id != id) := by
    intro t b ht
    obtain ⟨r, hr, _, _⟩ := dbGet_some (s := t) (by rw [ht]; exact hrow) hid
    simp [deleteRecipe, hr, dbDelete, ht]
  obtain ⟨h1, h2⟩ := key s fsErr rfl
  have hmem : ∀ r, r ∈ (deleteRecipe s id none none fsErr).1.rows ↔ r ∈ s.rows ∧ r.id ≠ id := by
    intro r
    rw [h2, List.mem_filter]
    simp
  have hlist : ∀ e ∈ ((deleteRecipe s id none none fsErr).1.rows.map fetchedRow).map
      (fun row => { row with
        image := "http://localhost:" ++ toString port ++ "/uploads/" ++ basename row.image }),
      ∃ r ∈ s.rows, r.id ≠ id ∧ e.id = jsNumber r.id := by
    intro e he
    obtain ⟨e0, he0, rfl⟩ := List.mem_map.1 he
    obtain ⟨r0, hr0, rfl⟩ := List.mem_map.1 he0
    exact ⟨r0, ((hmem r0).1 hr0).1, ((hmem r0).1 hr0).2, rfl⟩
  refine ⟨h1, ?_, hmem, ?_, ⟨_, rfl, hlist, ?_⟩, ?_⟩
  · rw [h2]
    exact List.filter_sublist _
  · intro hnodup
    obtain ⟨l1, l2, hsplit⟩ := List.append_of_mem hrow
    refine ⟨l1, l2, hsplit, ?_⟩
    rw [h2, ← hid, hsplit]
    exact filter_ne_split l1 l2 row (by rw [← hsplit]; exact hnodup)
  · intro hsafe e he
    obtain ⟨r, hr, hne, hje⟩ := hlist e he
    rw [hje, jsNumber_safe _ (hsafe r hr)]
    exact hne
  · intro files b
    obtain ⟨k1, k2⟩ := key { s with files := files } b rfl
    exact ⟨by rw [k1, h1], by rw [k2, h2]⟩

theorem delete_existing_id_witness :
    (soupStore.rows.map Row.id).Nodup ∧
      (deleteRecipe soupStore 1 none none false).2
        = { status := 200, body := .deleted "Recipe deleted successfully" 1 } ∧
      (∃ l1 l2, soupStore.rows
          = l1 ++ ({ id := 1, name := "Soup", poster := "Alice", ingredients := "water,salt",
                     instructions := "boil", image := "uploads/17.jpg", liked := 0,
                     favorited := 0 } : Row) :: l2 ∧
        (deleteRecipe soupStore 1 none none false).1.rows = l1 ++ l2) ∧
      safeIds (run emptyStore [.create soup 17 none, .create soup 18 none]).1 ∧
      ∃ rs, listRecipes (deleteRecipe
            (run emptyStore [.create soup 17 none, .create soup 18 none]).1
            1 none none false).1 none
          = { status := 200, body := .rows rs } ∧
        ∀ e ∈ rs, e.id ≠ 1 :=
  ⟨by decide,
    (delete_existing_id soupStore 1 false
      { id := 1, name := "Soup", poster := "Alice", ingredients := "water,salt",
        instructions := "boil", image := "uploads/17.jpg", liked := 0, favorited := 0 }
      (by decide) rfl).1,
    (delete_existing_id soupStore 1 false
      { id := 1, name := "Soup", poster := "Alice", ingredients := "water,salt",
        instructions := "boil", image := "uploads/17.jpg", liked := 0, favorited := 0 }
      (by decide) rfl).2.2.2.1 (by decide),
    by decide,
    match (delete_existing_id (run emptyStore [.create soup 17 none, .create soup 18 none]).1
        1 false
        { id := 1, name := "Soup", poster := "Alice", ingredients := "water,salt",
          instructions := "boil", image := "uploads/17.jpg", liked := 0, favorited := 0 }
        (by decide) rfl).2.2.2.2.1 with
    | ⟨rs, h1, _, h3⟩ => ⟨rs, h1, h3 (by decide)⟩⟩

/-! ## Flag updates -/

theorem dbSetLiked_idem (s : Store) (v id : Int) :
    dbSetLiked (dbSetLiked s v id) v id = dbSetLiked s v id := by
  simp only [dbSetLiked, List.map_map, Store.mk.injEq, and_true]
  apply List.map_congr_left
  intro r _
  by_cases h : r.id = id <;> simp [h]

theorem dbSetLiked_absent (s : Store) (v id : Int) (h : ∀ r ∈ s.rows, r.id ≠ id) :
    dbSetLiked s v id = s := by
  have : s.rows.map (fun r => if r.id = id then { r with liked := v } else r) = s.rows := by
    conv_rhs => rw [← List.map_id s.rows]
    apply List.map_congr_left
    intro r hr
    simp [h r hr]
  simp [dbSetLiked, this]

/-- C5: for every store and id, applying update-liked with value 1 any number of times
(at least once) gives the same store as applying it once, every application answers the
same success envelope, and afterwards every row with that id has `liked = 1`.  When no
row has the id the answer is still the success envelope and the store is unchanged. -/
theorem updateLiked_one_idempotent (s : Store) (id : Int) (n : Nat) :
    Nat.iterate (fun t => (updateLiked t id 1 none).1) (n + 1) s
        = (updateLiked s id 1 none).1 ∧
      (updateLiked (Nat.iterate (fun t => (updateLiked t id 1 none).1) n s) id 1 none).2
        = (updateLiked s id 1 none).2 ∧
      (updateLiked s id 1 none).2
        = { status := 200,
            body := .liked "Recipe liked status updated successfully" id 1 } ∧
      (∀ r ∈ (updateLiked s id 1 none).1.rows, r.id = id → r.liked = 1) ∧
      ((∀ r ∈ s.rows, r.id ≠ id) → (updateLiked s id 1 none).1 = s) := by
  refine ⟨?_, rfl, rfl, ?_, ?_⟩
  · induction n with
    | zero => rfl
    | succ k ih =>
      rw [Function.iterate_succ_apply', ih]
      exact dbSetLiked_idem s 1 id
  · intro r hr hid
    simp only [updateLiked, dbSetLiked, List.mem_map] at hr
    obtain ⟨r0, _, rfl⟩ := hr
    have h1 : jsNumber 1 = 1 := by decide
    by_cases h : r0.id = id
    · simp [h, h1]
    · simp [h] at hid
  · intro h
    exact dbSetLiked_absent s 1 id h

theorem updateLiked_one_idempotent_witness :
    (∀ r ∈ soupStore.rows, r.id ≠ 7) ∧ (updateLiked soupStore 7 1 none).1 = soupStore ∧
      (∀ r ∈ (updateLiked soupStore 1 1 none).1.rows, r.id = 1 → r.liked = 1) :=
  ⟨by decide, (updateLiked_one_idempotent soupStore 7 0).2.2.2.2 (by decide),
    (updateLiked_one_idempotent soupStore 1 0).2.2.2.1⟩

/-- C8, as the claim states it, fails for a value above 2^53: a body that writes
2^53 + 1 for `liked` is parsed into the double 2^53, which is what the row then holds
and what the response echoes. -/
theorem flag_value_rounded :
    (updateLiked soupStore 1 9007199254740993 none).1.rows.map Row.liked
        = [9007199254740992] ∧
      (updateLiked soupStore 1 9007199254740993 none).2
        = { status := 200,
            body := .liked "Recipe liked status updated successfully" 1
              9007199254740992 } := by
  decide

/-- C8, amended: frame of the two flag updates.  For every store, id, integer value of
the body and statement outcome, update-liked keeps the upload directory, the sequence
counter and the number and order of rows; the row at each position keeps its id, name,
poster, ingredients, instructions, image and `favorited`; a row with another id is
unchanged; and when the statement runs and the supplied value has absolute value at
most 2^53, a row with the id has `liked` equal to the supplied value, whatever it held
before.  The same holds for update-favorited with the two flags exchanged. -/
theorem flag_update_frame (s : Store) (id v : Int) (dbErr : Option String) :
    ((updateLiked s id v dbErr).1.files = s.files ∧
      (updateLiked s id v dbErr).1.seq = s.seq ∧
      (updateLiked s id v dbErr).1.rows.length = s.rows.length ∧
      ∀ (i : Nat) (r : Row), s.rows[i]? = some r →
        ∃ q, (updateLiked s id v dbErr).1.rows[i]? = some q ∧
          q.id = r.id ∧ q.name = r.name ∧ q.poster = r.poster ∧
          q.ingredients = r.ingredients ∧ q.instructions = r.instructions ∧
          q.image = r.image ∧ q.favorited = r.favorited ∧
          (r.id ≠ id → q = r) ∧
          (r.id = id → dbErr = none → safeInt v → q.liked = v)) ∧
    ((updateFavorited s id v dbErr).1.files = s.files ∧
      (updateFavorited s id v dbErr).1.seq = s.seq ∧
      (updateFavorited s id v dbErr).1.rows.length = s.rows.length ∧
      ∀ (i : Nat) (r : Row), s.rows[i]? = some r →
        ∃ q, (updateFavorited s id v dbErr).1.rows[i]? = some q ∧
          q.id = r.id ∧ q.name = r.name ∧ q.poster = r.poster ∧
          q.ingredients = r.ingredients ∧ q.instructions = r.instructions ∧
          q.image = r.image ∧ q.liked = r.liked ∧
          (r.id ≠ id → q = r) ∧
          (r.id = id → dbErr = none → safeInt v → q.favorited = v)) := by
  cases dbErr with
  | some e =>
    refine ⟨⟨rfl, rfl, rfl, ?_⟩, ⟨rfl, rfl, rfl, ?_⟩⟩ <;>
    · intro i r hr
      exact ⟨r, hr, rfl, rfl, rfl, rfl, rfl, rfl, rfl, fun _ => rfl,
        fun _ h => absurd h (by simp)⟩
  | none =>
    refine ⟨⟨rfl, rfl, by simp [updateLiked, dbSetLiked], ?_⟩,
      ⟨rfl, rfl, by simp [updateFavorited, dbSetFavorited], ?_⟩⟩
    · intro i r hr
      refine ⟨if r.id = id then { r with liked := jsNumber v } else r, ?_, ?_⟩
      · simp [updateLiked, dbSetLiked, List.getElem?_map, hr]
      · by_cases h : r.id = id
        · simp only [h, if_true, ne_eq, not_true_eq_false, false_implies, true_implies,
            true_and]
          exact fun hv => jsNumber_safe v hv
        · simp [h]
    · intro i r hr
      refine ⟨if r.id = id then { r with favorited := jsNumber v } else r, ?_, ?_⟩
      · simp [updateFavorited, dbSetFavorited, List.getElem?_map, hr]
      · by_cases h : r.id = id
        · simp only [h, if_true, ne_eq, not_true_eq_false, false_implies, true_implies,
            true_and]
          exact fun hv => jsNumber_safe v hv
        · simp [h]

theorem flag_update_frame_witness :
    (updateLiked soupStore 1 1 none).1.files = soupStore.files ∧
      (updateFavorited soupStore 1 1 none).1.rows.length = soupStore.rows.length ∧
      safeInt 1 ∧
      ∃ q, (updateLiked soupStore 1 1 none).1.rows[0]? = some q ∧ q.liked = 1 :=
  ⟨(flag_update_frame soupStore 1 1 none).1.1, (flag_update_frame soupStore 1 1 none).2.2.2.1,
    by decide,
    match (flag_update_frame soupStore 1 1 none).1.2.2.2 0
        { id := 1, name := "Soup", poster := "Alice", ingredients := "water,salt",
          instructions := "boil", image := "uploads/17.jpg", liked := 0, favorited := 0 }
        rfl with
    | ⟨q, hq, h⟩ => ⟨q, hq, h.2.2.2.2.2.2.2.2 rfl rfl (by decide)⟩⟩

/-! ## List and create -/

/-- C6, as the claim states it, fails above 2^53: the stored row has id 2^53 + 1 and
its list entry has id 2^53, so the entry differs from the stored row in more than the
image field. -/
theorem listed_id_rounded :
    bigStore.rows.map Row.id = [9007199254740992, 9007199254740993] ∧
      listRecipes bigStore none
        = { status := 200,
            body := .rows [{ id := 9007199254740992, name := "Stew", poster := "Bob",
                             ingredients := "beef", instructions := "simmer",
                             image := "http://localhost:5000/uploads/17.jpg", liked := 0,
                             favorited := 0 },
                           { id := 9007199254740992, name := "Soup", poster := "Alice",
                             ingredients := "water,salt", instructions := "boil",
                             image := "http://localhost:5000/uploads/18.jpg", liked := 0,
                             favorited := 0 }] } := by
  decide

/-- C6, amended: for every table state the list route returns one entry per stored row,
in storage order; each entry has the name, poster, ingredients and instructions of the
stored row, the JS numbers of its id and flags, and the image
`http://localhost:<port>/uploads/<basename(image)>` with the fixed listening port; when
the id and the flags have absolute value at most 2^53 the entry equals the stored row
except for the image.  The basename has no directory component: it contains no slash,
and for a path that ends in a slash-free, non-empty name behind a slash it is that name.
The create response builds its image URL from the stored path of the inserted row by
the same rule, and its id and image are those of the list entry of that row. -/
theorem list_image_urls (s : Store) :
    (∃ rs, listRecipes s none = { status := 200, body := .rows rs } ∧
      rs.length = s.rows.length ∧
      ∀ (i : Nat) (r : Row), s.rows[i]? = some r →
        rs[i]? = some { r with
          id := jsNumber r.id, liked := jsNumber r.liked, favorited := jsNumber r.favorited,
          image := "http://localhost:" ++ toString port ++ "/uploads/" ++ basename r.image } ∧
        (safeInt r.id → safeInt r.liked → safeInt r.favorited →
          rs[i]? = some { r with
            image := "http://localhost:" ++ toString port ++ "/uploads/" ++ basename r.image })) ∧
    (∀ (p : String), ∀ c ∈ (basename p).data, c ≠ '/') ∧
    (∀ (dir name : String), name.data ≠ [] → (∀ c ∈ name.data, c ≠ '/') →
      basename (dir ++ "/" ++ name) = name) ∧
    (∀ (req : CreateReq) (now : Nat) (dbErr : Option String) (s2 : Store) (msg : String)
        (d : Created),
      createRecipe s req now dbErr = (s2, { status := 200, body := .created msg d }) →
      ∃ row ∈ s2.rows, jsNumber row.id = d.id ∧
        d.image = "http://localhost:" ++ toString port ++ "/uploads/" ++ basename row.image ∧
        ∃ rs, listRecipes s2 none = { status := 200, body := .rows rs } ∧
          ∃ e ∈ rs, e.id = d.id ∧ e.image = d.image) := by
  have hentry : ∀ (i : Nat) (r : Row), s.rows[i]? = some r →
      ((s.rows.map fetchedRow).map (fun row => { row with
        image := "http://localhost:" ++ toString port ++ "/uploads/" ++ basename row.image }))[i]?
        = some { r with
          id := jsNumber r.id, liked := jsNumber r.liked, favorited := jsNumber r.favorited,
          image := "http://localhost:" ++ toString port ++ "/uploads/" ++ basename r.image } := by
    intro i r hr
    simp [List.getElem?_map, hr, fetchedRow]
  refine ⟨⟨_, rfl, by simp, ?_⟩, basename_no_slash, ?_, ?_⟩
  · intro i r hr
    refine ⟨hentry i r hr, ?_⟩
    intro h1 h2 h3
    rw [hentry i r hr, jsNumber_safe _ h1, jsNumber_safe _ h2, jsNumber_safe _ h3]
  · intro dir name hne hns
    have := basename_of_data (dir ++ "/" ++ name) dir.data name.data
      (by simp [String.data_append]) hne hns
    simpa using this
  · intro req now dbErr s2 msg d h
    obtain ⟨f, n, p, g, t, k, _, _, _, _, _, _, _, hs, hd⟩ := createRecipe_ok h
    subst hs hd
    refine ⟨_, List.mem_append_right _ (List.mem_singleton_self _), rfl, ?_, ?_⟩
    · rw [url_const]
    · refine ⟨_, rfl, _, List.mem_map_of_mem _ (List.mem_map_of_mem _
        (List.mem_append_right _ (List.mem_singleton_self _))), rfl, ?_⟩
      simp only [url_const, fetchedRow]

theorem list_image_urls_witness :
    listRecipes soupStore none
      = { status := 200,
          body := .rows [{ id := 1, name := "Soup", poster := "Alice",
                           ingredients := "water,salt", instructions := "boil",
                           image := "http://localhost:5000/uploads/17.jpg", liked := 0,
                           favorited := 0 }] } ∧
      basename ("a/b" ++ "/" ++ "c.png") = "c.png" ∧
      (∃ rs, listRecipes soupStore none = { status := 200, body := .rows rs } ∧
        rs[0]? = some { id := 1, name := "Soup", poster := "Alice",
                        ingredients := "water,salt", instructions := "boil",
                        image := "http://localhost:" ++ toString port ++ "/uploads/"
                          ++ basename "uploads/17.jpg",
                        liked := 0, favorited := 0 }) :=
  ⟨by decide, (list_image_urls soupStore).2.2.1 "a/b" "c.png" (by decide) (by decide),
    match (list_image_urls soupStore).1 with
    | ⟨rs, h1, _, h3⟩ =>
      ⟨rs, h1, (h3 0 { id := 1, name := "Soup", poster := "Alice",
                        ingredients := "water,salt", instructions := "boil",
                        image := "uploads/17.jpg", liked := 0, favorited := 0 } rfl).2
        (by decide) (by decide) (by decide)⟩⟩

/-- C9: for every store and every create request that carries a file, if the insert
statement fails with a message then the response is 400 with the error envelope
carrying that message and no data, the table and the sequence counter are unchanged,
and the uploaded file is in the upload directory together with every file that was
there before. -/
theorem create_insert_failure (s : Store) (req : CreateReq) (f : UploadFile) (now : Nat)
    (dbErr : Option String) (msg : String) (hf : req.file = some f)
    (hfail : dbInsert s req.name req.poster req.ingredients req.instructions
      (uploadPath f now) dbErr = .error msg) :
    (createRecipe s req now dbErr).2 = { status := 400, body := .error msg } ∧
      (createRecipe s req now dbErr).1.rows = s.rows ∧
      (createRecipe s req now dbErr).1.seq = s.seq ∧
      uploadPath f now ∈ (createRecipe s req now dbErr).1.files ∧
      (∀ p ∈ s.files, p ∈ (createRecipe s req now dbErr).1.files) := by
  have h2 := (dbInsert_files_irrelevant s (writeFile s.files (uploadPath f now)) req.name
    req.poster req.ingredients req.instructions (uploadPath f now) dbErr msg).2 hfail
  have h : createRecipe s req now dbErr
      = ({ s with files := writeFile s.files (uploadPath f now) },
          { status := 400, body := .error msg }) := by
    simp only [createRecipe, hf, h2]
  rw [h]
  refine ⟨rfl, rfl, rfl, ?_, ?_⟩
  · simp only [writeFile]
    split_ifs with hm
    · exact hm
    · simp
  · intro p hp
    simp only [writeFile]
    split_ifs
    · exact hp
    · exact List.mem_append_left _ hp

theorem create_insert_failure_witness :
    (createRecipe emptyStore nameless 17 none).2
        = { status := 400,
            body := .error "SQLITE_CONSTRAINT: NOT NULL constraint failed: recipes.name" } ∧
      (createRecipe emptyStore nameless 17 none).1.rows = [] ∧
      (createRecipe emptyStore soup 17 (some "SQLITE_BUSY: database is locked")).1.files
        = ["uploads/17.jpg"] :=
  ⟨(create_insert_failure emptyStore nameless { originalname := "photo.jpg" } 17 none
      "SQLITE_CONSTRAINT: NOT NULL constraint failed: recipes.name" rfl rfl).1,
    (create_insert_failure emptyStore nameless { originalname := "photo.jpg" } 17 none
      "SQLITE_CONSTRAINT: NOT NULL constraint failed: recipes.name" rfl rfl).2.1,
    by decide⟩

/-- C3, as the claim states it, fails in two ways.  A file named `photo.jpg#1` gets the
generated name `17.jpg#1`, and the last path segment of the image URL is `17.jpg`.  A
create into a table that holds the row 2^53 returns the id 2^53 for the new row
2^53 + 1, and the list that follows has two entries with the returned id. -/
theorem create_then_list_fails :
    ((createRecipe emptyStore soupHash 17 none).2
        = { status := 200,
            body := .created "Recipe added successfully"
              { id := 1, name := some "Soup", poster := some "Alice",
                ingredients := some "water,salt", instructions := some "boil",
                image := "http://localhost:5000/uploads/17.jpg#1", liked := 0,
                favorited := 0 } } ∧
      filename { originalname := "photo.jpg#1" } 17 = "17.jpg#1" ∧
      urlLastSegment "http://localhost:5000/uploads/17.jpg#1" = "17.jpg") ∧
    (createdId (createRecipe stewStore soup 18 none).2 = some 9007199254740992 ∧
      (createRecipe stewStore soup 18 none).1.rows.map Row.id
        = [9007199254740992, 9007199254740993] ∧
      listRecipes (createRecipe stewStore soup 18 none).1 none
        = { status := 200,
            body := .rows [{ id := 9007199254740992, name := "Stew", poster := "Bob",
                             ingredients := "beef", instructions := "simmer",
                             image := "http://localhost:5000/uploads/17.jpg", liked := 0,
                             favorited := 0 },
                           { id := 9007199254740992, name := "Soup", poster := "Alice",
                             ingredients := "water,salt", instructions := "boil",
                             image := "http://localhost:5000/uploads/18.jpg", liked := 0,
                             favorited := 0 }] }) := by
  decide

/-- C3, amended: round trip of create then list.  For every store whose ids are at
least -2^53 and, like its sequence counter, below 2^53, and every create request whose
file has an extension without `?` and `#`: when the create succeeds (the response is the
success envelope with data `d`), the list that follows returns exactly one row with the
returned id; that row has the name, poster, ingredients and instructions of the request,
`liked = 0`, `favorited = 0`, and its image is the upload URL followed by the generated
filename, so that the last path segment of the URL (and its basename) is the generated
filename, and it equals the image URL of the create response. -/
theorem create_then_list (s s2 : Store) (req : CreateReq) (f : UploadFile) (now : Nat)
    (dbErr : Option String) (msg : String) (d : Created)
    (hids : ∀ r ∈ s.rows, -(2 ^ 53) ≤ r.id ∧ r.id < 2 ^ 53) (hseq : s.seq < 2 ^ 53)
    (hf : req.file = some f)
    (hext : ∀ c ∈ (extname f.originalname).data, c ≠ '?' ∧ c ≠ '#')
    (h : createRecipe s req now dbErr = (s2, { status := 200, body := .created msg d })) :
    ∃ rs row,
      listRecipes s2 none = { status := 200, body := .rows rs } ∧
      rs.filter (fun r => r.id == d.id) = [row] ∧
      some row.name = req.name ∧ some row.poster = req.poster ∧
      some row.ingredients = req.ingredients ∧ some row.instructions = req.instructions ∧
      row.liked = 0 ∧ row.favorited = 0 ∧
      row.image = "http://localhost:5000/uploads/" ++ filename f now ∧
      urlLastSegment row.image = filename f now ∧
      basename row.image = filename f now ∧
      row.image = d.image := by
  obtain ⟨f2, n, p, g, t, k, hf2, hn, hp, hg, ht, _, hk, hs, hd⟩ := createRecipe_ok h
  have hff : f2 = f := by
    rw [hf] at hf2
    exact (Option.some.inj hf2).symm
  subst hff
  obtain ⟨hlt, hseqk, _⟩ := newRowid_spec hk
  have hbase := basename_uploadPath f2 now
  have hfd := filename_data f2 now
  have hfm := filename_no_mark f2 now hext
  have hksafe : safeInt k := by
    show -(2 ^ 53) ≤ k ∧ k ≤ 2 ^ 53
    unfold newRowid at hk
    split at hk
    · split_ifs at hk
      simp at hk
      constructor <;> omega
    · rename_i m hm
      obtain ⟨r, hr, hrm⟩ := lastRowid_mem _ _ hm
      have := hids r hr
      split_ifs at hk
      simp at hk
      constructor <;> omega
  have hkjs : jsNumber k = k := jsNumber_safe k hksafe
  subst hs hd
  refine ⟨_, ({ id := k, name := n, poster := p, ingredients := g, instructions := t,
                image := "http://localhost:5000/uploads/" ++ filename f2 now,
                liked := 0, favorited := 0 } : Row), rfl, ?_, hn.symm, hp.symm, hg.symm,
    ht.symm, rfl, rfl, rfl, urlLastSegment_url _ hfd.2 hfm, basename_url _ hfd.1 hfd.2,
    by simp only [hbase]⟩
  simp only [hkjs]
  rw [List.map_append, List.map_append, List.filter_append]
  have h1 : ((s.rows.map fetchedRow).map (fun row => { row with
      image := "http://localhost:" ++ toString port ++ "/uploads/" ++ basename row.image })).filter
      (fun r => r.id == k) = [] := by
    rw [List.filter_eq_nil_iff]
    intro r hr
    obtain ⟨r1, hr1, rfl⟩ := List.mem_map.1 hr
    obtain ⟨r0, hr0, rfl⟩ := List.mem_map.1 hr1
    have hlt0 := hlt r0 hr0
    have hsafe0 : safeInt r0.id := ⟨(hids r0 hr0).1, le_of_lt (hids r0 hr0).2⟩
    simp only [fetchedRow, beq_iff_eq, jsNumber_safe _ hsafe0]
    omega
  have h0 : jsNumber 0 = 0 := by decide
  rw [h1]
  simp [url_const, hbase, fetchedRow, hkjs, h0]

theorem create_then_list_witness :
    ∃ rs row,
      listRecipes soupStore none = { status := 200, body := .rows rs } ∧
      rs.filter (fun r => r.id == 1) = [row] ∧
      some row.name = soup.name ∧ some row.poster = soup.poster ∧
      some row.ingredients = soup.ingredients ∧ some row.instructions = soup.instructions ∧
      row.liked = 0 ∧ row.favorited = 0 ∧
      row.image = "http://localhost:5000/uploads/" ++ filename { originalname := "photo.jpg" } 17 ∧
      urlLastSegment row.image = filename { originalname := "photo.jpg" } 17 ∧
      basename row.image = filename { originalname := "photo.jpg" } 17 ∧
      row.image = "http://localhost:5000/uploads/17.jpg" :=
  create_then_list emptyStore soupStore soup { originalname := "photo.jpg" } 17 none
    "Recipe added successfully"
    { id := 1, name := some "Soup", poster := some "Alice", ingredients := some "water,salt",
      instructions := some "boil", image := "http://localhost:5000/uploads/17.jpg",
      liked := 0, favorited := 0 } (by decide) (by decide) rfl (by decide) (by decide)

/-! ## Request sequences: ids -/

theorem step_seq_mono (s : Store) (op : Op) : s.seq ≤ (step s op).1.seq := by
  cases op with
  | list e => exact le_refl _
  | create req now e =>
    simp only [step, createRecipe]
    cases req.file with
    | none => exact le_refl _
    | some f =>
      simp only []
      cases hi : dbInsert { s with files := writeFile s.files (uploadPath f now) } req.name
          req.poster req.ingredients req.instructions (uploadPath f now) e with
      | error m => exact le_refl _
      | ok v =>
        obtain ⟨s3, k⟩ := v
        obtain ⟨_, _, _, _, _, _, _, _, _, hk, hs⟩ := dbInsert_ok hi
        have := (newRowid_spec hk).2.1
        subst hs
        exact le_of_lt this
  | delete id e1 e2 b =>
    simp only [step, deleteRecipe]
    cases e1 with
    | some m => exact le_refl _
    | none =>
      simp only []
      cases dbGet s id with
      | none => exact le_refl _
      | some r => cases e2 <;> exact le_refl _
  | like id v e => cases e <;> exact le_refl _
  | favorite id v e => cases e <;> exact le_refl _

theorem step_created (s : Store) (op : Op) (k : Int)
    (h : createdId (step s op).2 = some k) :
    ∃ j, k = jsNumber j ∧ s.seq < j ∧ (step s op).1.seq = j := by
  cases op with
  | list e => cases e <;> simp [step, listRecipes, createdId] at h
  | create req now e =>
    cases hst : createRecipe s req now e with
    | mk s2 resp =>
      have h2 : createdId resp = some k := by simpa [step, hst] using h
      obtain ⟨st, body⟩ := resp
      cases body with
      | created msg d =>
        have hd : d.id = k := by simpa [createdId] using h2
        have hst200 : st = 200 := by
          unfold createRecipe at hst
          cases hf : req.file with
          | none => rw [hf] at hst; simp at hst
          | some f =>
            rw [hf] at hst
            simp only [] at hst
            split at hst <;> simp at hst
            exact hst.2.1.symm
        subst hst200
        obtain ⟨f, n, p, g, t, k2, _, _, _, _, _, _, hk, hs, hdd⟩ := createRecipe_ok hst
        subst hs hdd
        simp only [step, hst]
        simp only at hd
        exact ⟨k2, hd.symm, (newRowid_spec hk).2.1, rfl⟩
      | _ => simp [createdId] at h2
  | delete id e1 e2 b =>
    simp only [step, deleteRecipe] at h
    cases e1 with
    | some m => simp [createdId] at h
    | none =>
      simp only [] at h
      cases hg : dbGet s id with
      | none => rw [hg] at h; simp [createdId] at h
      | some r => rw [hg] at h; cases e2 <;> simp [createdId] at h
  | like id v e => cases e <;> simp [step, updateLiked, createdId] at h
  | favorite id v e => cases e <;> simp [step, updateFavorited, createdId] at h

theorem run_seq_mono (ops : List Op) : ∀ s : Store, s.seq ≤ (run s ops).1.seq := by
  induction ops with
  | nil => intro s; exact le_refl _
  | cons op ops ih =>
    intro s
    exact le_trans (step_seq_mono s op) (ih (step s op).1)

theorem createdIds_cons (s : Store) (op : Op) (ops : List Op) :
    createdIds (run s (op :: ops)).2 =
      match createdId (step s op).2 with
      | none => createdIds (run (step s op).1 ops).2
      | some k => k :: createdIds (run (step s op).1 ops).2 := by
  simp only [run, createdIds, List.filterMap_cons]
  cases createdId (step s op).2 <;> rfl

theorem createdIds_exact (ops : List Op) :
    ∀ s : Store, 0 ≤ s.seq → (run s ops).1.seq ≤ 2 ^ 53 →
      ∀ k ∈ createdIds (run s ops).2, s.seq < k ∧ k ≤ (run s ops).1.seq := by
  induction ops with
  | nil => intro s _ _ k hk; simp [run, createdIds] at hk
  | cons op ops ih =>
    intro s hlo hhi k hk
    have hfin : (run s (op :: ops)).1 = (run (step s op).1 ops).1 := rfl
    rw [hfin] at hhi ⊢
    have hmono := step_seq_mono s op
    have hrun := run_seq_mono ops (step s op).1
    rw [createdIds_cons] at hk
    cases hc : createdId (step s op).2 with
    | none =>
      rw [hc] at hk
      have := ih _ (le_trans hlo hmono) hhi k hk
      exact ⟨lt_of_le_of_lt hmono this.1, this.2⟩
    | some j =>
      rw [hc] at hk
      rcases List.mem_cons.1 hk with rfl | hk
      · obtain ⟨i, hki, hlt, hseq⟩ := step_created s op _ hc
        have hsafe : safeInt i := by
          show -(2 ^ 53) ≤ i ∧ i ≤ 2 ^ 53
          constructor <;> omega
        rw [hki, jsNumber_safe i hsafe]
        constructor <;> omega
      · have := ih _ (le_trans hlo hmono) hhi k hk
        exact ⟨lt_of_le_of_lt hmono this.1, this.2⟩

theorem createdIds_increasing (ops : List Op) :
    ∀ s : Store, 0 ≤ s.seq → (run s ops).1.seq ≤ 2 ^ 53 →
      (createdIds (run s ops).2).Pairwise (fun a b => a < b) := by
  induction ops with
  | nil => intro s _ _; simp [run, createdIds]
  | cons op ops ih =>
    intro s hlo hhi
    have hfin : (run s (op :: ops)).1 = (run (step s op).1 ops).1 := rfl
    rw [hfin] at hhi
    have hmono := step_seq_mono s op
    have hrun := run_seq_mono ops (step s op).1
    rw [createdIds_cons]
    cases hc : createdId (step s op).2 with
    | none => exact ih _ (le_trans hlo hmono) hhi
    | some j =>
      simp only []
      refine List.Pairwise.cons ?_ (ih _ (le_trans hlo hmono) hhi)
      intro k hk
      have hk2 := (createdIds_exact ops _ (le_trans hlo hmono) hhi k hk).1
      obtain ⟨i, hji, hlt, hseq⟩ := step_created s op _ hc
      have hsafe : safeInt i := by
        show -(2 ^ 53) ≤ i ∧ i ≤ 2 ^ 53
        constructor <;> omega
      rw [hji, jsNumber_safe i hsafe]
      omega

theorem step_storeOk (s : Store) (op : Op) (h : StoreOk s) : StoreOk (step s op).1 := by
  obtain ⟨hn, hle⟩ := h
  cases op with
  | list e => exact ⟨hn, hle⟩
  | create req now e =>
    simp only [step, createRecipe]
    cases req.file with
    | none => exact ⟨hn, hle⟩
    | some f =>
      simp only []
      cases hi : dbInsert { s with files := writeFile s.files (uploadPath f now) } req.name
          req.poster req.ingredients req.instructions (uploadPath f now) e with
      | error m => exact ⟨hn, hle⟩
      | ok v =>
        obtain ⟨s3, k⟩ := v
        obtain ⟨_, _, _, _, _, _, _, _, _, hk, hs⟩ := dbInsert_ok hi
        obtain ⟨hlt, _, _⟩ := newRowid_spec hk
        subst hs
        refine ⟨?_, ?_⟩
        · simp only [List.map_append, List.map_cons, List.map_nil]
          rw [List.nodup_append]
          refine ⟨hn, by simp, ?_⟩
          intro a ha hb
          obtain ⟨r, hr, rfl⟩ := List.mem_map.1 ha
          have := hlt r hr
          simp at hb
          omega
        · intro r hr
          rcases List.mem_append.1 hr with hr | hr
          · exact le_of_lt (hlt r hr)
          · simp at hr; subst hr; exact le_refl _
  | delete id e1 e2 b =>
    simp only [step, deleteRecipe]
    cases e1 with
    | some m => exact ⟨hn, hle⟩
    | none =>
      simp only []
      cases dbGet s id with
      | none => exact ⟨hn, hle⟩
      | some r =>
        cases e2 with
        | some m => exact ⟨hn, hle⟩
        | none =>
          refine ⟨?_, ?_⟩
          · exact hn.sublist ((List.filter_sublist _).map _)
          · intro q hq
            exact hle q (List.mem_filter.1 hq).1
  | like id v e =>
    cases e with
    | some m => exact ⟨hn, hle⟩
    | none =>
      refine ⟨?_, ?_⟩
      · have : (step s (.like id v none)).1.rows.map Row.id = s.rows.map Row.id := by
          simp only [step, updateLiked, dbSetLiked, List.map_map]
          apply List.map_congr_left
          intro r _
          by_cases hr : r.id = id <;> simp [hr]
        rw [this]; exact hn
      · intro q hq
        simp only [step, updateLiked, dbSetLiked, List.mem_map] at hq
        obtain ⟨r, hr, rfl⟩ := hq
        have := hle r hr
        by_cases h : r.id = id <;> simpa [h] using this
  | favorite id v e =>
    cases e with
    | some m => exact ⟨hn, hle⟩
    | none =>
      refine ⟨?_, ?_⟩
      · have : (step s (.favorite id v none)).1.rows.map Row.id = s.rows.map Row.id := by
          simp only [step, updateFavorited, dbSetFavorited, List.map_map]
          apply List.map_congr_left
          intro r _
          by_cases hr : r.id = id <;> simp [hr]
        rw [this]; exact hn
      · intro q hq
        simp only [step, updateFavorited, dbSetFavorited, List.mem_map] at hq
        obtain ⟨r, hr, rfl⟩ := hq
        have := hle r hr
        by_cases h : r.id = id <;> simpa [h] using this

theorem run_storeOk (ops : List Op) : ∀ s : Store, StoreOk s → StoreOk (run s ops).1 := by
  induction ops with
  | nil => intro s h; exact h
  | cons op ops ih => intro s h; exact ih _ (step_storeOk s op h)

/-- C4, as the claim states it, fails once the sequence counter has reached 2^53: the
next four creates get the row ids 2^53 + 1 to 2^53 + 4, and the ids returned for them,
being doubles, are 2^53, 2^53 + 2, 2^53 + 4 and 2^53 + 4 again. -/
theorem created_ids_repeat :
    (run seededStore [.create soup 17 none, .create soup 18 none, .create soup 19 none,
        .create soup 20 none]).1.rows.map Row.id
      = [9007199254740993, 9007199254740994, 9007199254740995, 9007199254740996] ∧
    createdIds (run seededStore [.create soup 17 none, .create soup 18 none,
        .create soup 19 none, .create soup 20 none]).2
      = [9007199254740992, 9007199254740994, 9007199254740996, 9007199254740996] ∧
    ¬ (createdIds (run seededStore [.create soup 17 none, .create soup 18 none,
        .create soup 19 none, .create soup 20 none]).2).Pairwise (fun a b => a < b) := by
  refine ⟨by decide, by decide, ?_⟩
  have h : createdIds (run seededStore [.create soup 17 none, .create soup 18 none,
        .create soup 19 none, .create soup 20 none]).2
      = [9007199254740992, 9007199254740994, 9007199254740996, 9007199254740996] := by
    decide
  rw [h]
  decide

/-- C4, amended: for every sequence of requests (creates, deletes, flag updates and
lists in any order, with any statement outcomes) run from a store whose sequence counter
is not negative, as long as the counter stays at most 2^53 the ids returned by the
successful creates are strictly increasing in request order, so no id is returned twice,
and from a well-formed table (distinct ids, none above the counter, as in the empty
store) every returned id is larger than every id the table held at the start.  From a
well-formed table the ids of the rows of the final table are pairwise distinct, whatever
the counter. -/
theorem created_ids_strictly_increasing (s : Store) (ops : List Op) :
    (0 ≤ s.seq → (run s ops).1.seq ≤ 2 ^ 53 →
      (createdIds (run s ops).2).Pairwise (fun a b => a < b) ∧
        (createdIds (run s ops).2).Nodup ∧
        (StoreOk s → ∀ k ∈ createdIds (run s ops).2, ∀ r ∈ s.rows, r.id < k)) ∧
      (StoreOk s → ((run s ops).1.rows.map Row.id).Nodup) := by
  refine ⟨?_, fun hok => (run_storeOk ops s hok).1⟩
  intro hlo hhi
  have hp := createdIds_increasing ops s hlo hhi
  refine ⟨hp, hp.imp (fun h => ne_of_lt h), ?_⟩
  intro hok k hk r hr
  exact lt_of_le_of_lt (hok.2 r hr) (createdIds_exact ops s hlo hhi k hk).1

theorem created_ids_strictly_increasing_witness :
    createdIds (run emptyStore
        [.create soup 17 none, .delete 1 none none false, .create soup 18 none,
          .like 2 1 none, .create soup 19 none]).2 = [1, 2, 3] ∧
      (createdIds (run emptyStore
        [.create soup 17 none, .delete 1 none none false, .create soup 18 none,
          .like 2 1 none, .create soup 19 none]).2).Pairwise (fun a b => a < b) ∧
      ((run soupStore [.create soup 18 none]).1.rows.map Row.id).Nodup :=
  ⟨by decide,
    ((created_ids_strictly_increasing emptyStore
      [.create soup 17 none, .delete 1 none none false, .create soup 18 none,
        .like 2 1 none, .create soup 19 none]).1 (by decide) (by decide)).1,
    (created_ids_strictly_increasing soupStore [.create soup 18 none]).2
      ⟨by decide, by decide⟩⟩

/-! ## Request sequences: image files -/

/-- One admissible request preserves the pair of facts behind the no-dangling-row
property: rows reference pairwise distinct paths, and every referenced path is a file of
the upload directory. -/
theorem step_images (s : Store) (op : Op) (hok : opKeepsImages s op = true)
    (hn : (s.rows.map Row.image).Nodup) (hp : imagesPresent s) :
    ((step s op).1.rows.map Row.image).Nodup ∧ imagesPresent (step s op).1 := by
  cases op with
  | list e => exact ⟨hn, hp⟩
  | create req now e =>
    simp only [step, createRecipe]
    simp only [opKeepsImages] at hok
    cases hf : req.file with
    | none => exact ⟨hn, hp⟩
    | some f =>
      rw [hf] at hok
      simp only [decide_eq_true_eq] at hok
      have hsub : ∀ q ∈ s.files, q ∈ writeFile s.files (uploadPath f now) := by
        intro q hq
        simp only [writeFile]
        split_ifs
        · exact hq
        · exact List.mem_append_left _ hq
      have hnew : uploadPath f now ∈ writeFile s.files (uploadPath f now) := by
        simp only [writeFile]
        split_ifs with hm
        · exact hm
        · simp
      simp only []
      cases hi : dbInsert { s with files := writeFile s.files (uploadPath f now) } req.name
          req.poster req.ingredients req.instructions (uploadPath f now) e with
      | error m => exact ⟨hn, fun r hr => hsub _ (hp r hr)⟩
      | ok v =>
        obtain ⟨s3, k⟩ := v
        obtain ⟨_, _, _, _, _, _, _, _, _, _, hs⟩ := dbInsert_ok hi
        subst hs
        refine ⟨?_, ?_⟩
        · simp only [List.map_append, List.map_cons, List.map_nil]
          rw [List.nodup_append]
          refine ⟨hn, by simp, ?_⟩
          intro a ha hb
          simp at hb
          subst hb
          exact hok ha
        · intro r hr
          rcases List.mem_append.1 hr with hr | hr
          · exact hsub _ (hp r hr)
          · simp at hr; subst hr; exact hnew
  | delete id e1 e2 b =>
    simp only [step, deleteRecipe]
    simp only [opKeepsImages] at hok
    cases e1 with
    | some m => exact ⟨hn, hp⟩
    | none =>
      simp only []
      cases hg : dbGet s id with
      | none => exact ⟨hn, hp⟩
      | some r =>
        cases e2 with
        | some m => simp at hok
        | none =>
          have hr : r ∈ s.rows := List.mem_of_find?_eq_some hg
          have hrid : r.id = id := by simpa using List.find?_some hg
          refine ⟨hn.sublist ((List.filter_sublist _).map _), ?_⟩
          intro q hq
          obtain ⟨hq1, hq2⟩ := List.mem_filter.1 hq
          have hqid : q.id ≠ id := by simpa using hq2
          have hne : q.image ≠ r.image := by
            intro he
            have := List.inj_on_of_nodup_map hn hq1 hr he
            exact hqid (by rw [this, hrid])
          simp only [unlink]
          split_ifs
          · exact hp q hq1
          · exact List.mem_filter.2 ⟨hp q hq1, by simpa using hne⟩
  | like id v e =>
    cases e with
    | some m => exact ⟨hn, hp⟩
    | none =>
      have hm : (step s (.like id v none)).1.rows.map Row.image = s.rows.map Row.image := by
        simp only [step, updateLiked, dbSetLiked, List.map_map]
        apply List.map_congr_left
        intro r _
        by_cases hr : r.id = id <;> simp [hr]
      refine ⟨by rw [hm]; exact hn, ?_⟩
      intro q hq
      have : q.image ∈ (step s (.like id v none)).1.rows.map Row.image :=
        List.mem_map_of_mem _ hq
      rw [hm] at this
      obtain ⟨r, hr, he⟩ := List.mem_map.1 this
      rw [← he]
      exact hp r hr
  | favorite id v e =>
    cases e with
    | some m => exact ⟨hn, hp⟩
    | none =>
      have hm : (step s (.favorite id v none)).1.rows.map Row.image
          = s.rows.map Row.image := by
        simp only [step, updateFavorited, dbSetFavorited, List.map_map]
        apply List.map_congr_left
        intro r _
        by_cases hr : r.id = id <;> simp [hr]
      refine ⟨by rw [hm]; exact hn, ?_⟩
      intro q hq
      have : q.image ∈ (step s (.favorite id v none)).1.rows.map Row.image :=
        List.mem_map_of_mem _ hq
      rw [hm] at this
      obtain ⟨r, hr, he⟩ := List.mem_map.1 this
      rw [← he]
      exact hp r hr

theorem run_images (ops : List Op) : ∀ s : Store, keepsImages s ops = true →
    (s.rows.map Row.image).Nodup → imagesPresent s → imagesPresent (run s ops).1 := by
  induction ops with
  | nil => intro s _ _ hp; exact hp
  | cons op ops ih =>
    intro s hk hn hp
    simp only [keepsImages, Bool.and_eq_true] at hk
    obtain ⟨h1, h2⟩ := step_images s op hk.1 hn hp
    exact ih _ hk.2 h1 h2

/-- C7, as the claim states it, fails: two creates in the same millisecond with the
same extension generate the same file path; deleting the first row unlinks the file
that the second row still references. -/
theorem dangling_row_after_filename_collision :
    (run emptyStore
        [.create soup 1700000000000 none, .create soup 1700000000000 none, .delete 1 none none false]).1
      = { rows := [{ id := 2, name := "Soup", poster := "Alice", ingredients := "water,salt",
                     instructions := "boil", image := "uploads/1700000000000.jpg", liked := 0,
                     favorited := 0 }],
          seq := 2, files := [] } ∧
    ¬ imagesPresent (run emptyStore
        [.create soup 1700000000000 none, .create soup 1700000000000 none, .delete 1 none none false]).1 := by
  decide

/-- C7, amended: starting from the empty store, after every sequence of requests in
which no create generates a file path that a row of the table already references and no
row delete statement fails, the image path of every row is a file of the upload
directory. -/
theorem no_dangling_rows (ops : List Op) (h : keepsImages emptyStore ops = true) :
    imagesPresent (run emptyStore ops).1 :=
  run_images ops emptyStore h (by simp [emptyStore]) (by simp [imagesPresent, emptyStore])

theorem no_dangling_rows_witness :
    keepsImages emptyStore
        [.create soup 17 none, .create soup 18 none, .delete 1 none none false,
          .like 2 1 none] = true ∧
      imagesPresent (run emptyStore
        [.create soup 17 none, .create soup 18 none, .delete 1 none none false,
          .like 2 1 none]).1 :=
  ⟨by decide, no_dangling_rows _ (by decide)⟩

/-! ## Request sequences: flags -/

theorem step_flags (s : Store) (op : Op) (hv : flagValueBoolean op = true)
    (h : flagsBoolean s) : flagsBoolean (step s op).1 := by
  cases op with
  | list e => exact h
  | create req now e =>
    simp only [step, createRecipe]
    cases req.file with
    | none => exact h
    | some f =>
      simp only []
      cases hi : dbInsert { s with files := writeFile s.files (uploadPath f now) } req.name
          req.poster req.ingredients req.instructions (uploadPath f now) e with
      | error m => exact h
      | ok v =>
        obtain ⟨s3, k⟩ := v
        obtain ⟨_, _, _, _, _, _, _, _, _, _, hs⟩ := dbInsert_ok hi
        subst hs
        intro r hr
        rcases List.mem_append.1 hr with hr | hr
        · exact h r hr
        · simp at hr; subst hr; simp
  | delete id e1 e2 b =>
    simp only [step, deleteRecipe]
    cases e1 with
    | some m => exact h
    | none =>
      simp only []
      cases dbGet s id with
      | none => exact h
      | some r =>
        cases e2 with
        | some m => exact h
        | none => exact fun q hq => h q (List.mem_filter.1 hq).1
  | like id v e =>
    cases e with
    | some m => exact h
    | none =>
      simp only [flagValueBoolean, decide_eq_true_eq] at hv
      intro q hq
      simp only [step, updateLiked, dbSetLiked, List.mem_map] at hq
      obtain ⟨r, hr, rfl⟩ := hq
      have := h r hr
      by_cases hid : r.id = id
      · rw [jsNumber_flag v hv]
        simpa [hid] using ⟨hv, this.2⟩
      · simpa [hid] using this
  | favorite id v e =>
    cases e with
    | some m => exact h
    | none =>
      simp only [flagValueBoolean, decide_eq_true_eq] at hv
      intro q hq
      simp only [step, updateFavorited, dbSetFavorited, List.mem_map] at hq
      obtain ⟨r, hr, rfl⟩ := hq
      have := h r hr
      by_cases hid : r.id = id
      · rw [jsNumber_flag v hv]
        simpa [hid] using ⟨this.1, hv⟩
      · simpa [hid] using this

theorem run_flags (ops : List Op) : ∀ s : Store, (∀ op ∈ ops, flagValueBoolean op = true) →
    flagsBoolean s → flagsBoolean (run s ops).1 := by
  induction ops with
  | nil => intro s _ h; exact h
  | cons op ops ih =>
    intro s hv h
    exact ih _ (fun o ho => hv o (List.mem_cons_of_mem _ ho))
      (step_flags s op (hv op (List.mem_cons_self _ _)) h)

/-- C10, as the claim states it, fails: the update routes store whatever integer the
body carries, so a request with `liked: 5` leaves a row whose flag is 5. -/
theorem flag_not_boolean_after_update :
    ((run emptyStore [.create soup 17 none, .like 1 5 none]).1.rows.map Row.liked) = [5] ∧
      ¬ flagsBoolean (run emptyStore [.create soup 17 none, .like 1 5 none]).1 := by
  decide

/-- C10, amended: starting from the empty table, after every sequence of requests in
which each update-liked and update-favorited request supplies the value 0 or 1, both
flags of every row are 0 or 1. -/
theorem flags_boolean_invariant (ops : List Op)
    (h : ∀ op ∈ ops, flagValueBoolean op = true) :
    flagsBoolean (run emptyStore ops).1 :=
  run_flags ops emptyStore h (by simp [flagsBoolean, emptyStore])

theorem flags_boolean_invariant_witness :
    (∀ op ∈ [Op.create soup 17 none, Op.like 1 1 none, Op.favorite 1 0 none],
        flagValueBoolean op = true) ∧
      flagsBoolean (run emptyStore
        [Op.create soup 17 none, Op.like 1 1 none, Op.favorite 1 0 none]).1 :=
  ⟨by decide, flags_boolean_invariant _ (by decide)⟩

end RecipeWeb
